import Mathlib

/-!
Verification development for the `yahoo_finance_hdd` repository
(`yahoo_finance_hdd/exchange_calendars.py` and `yahoo_finance_hdd/yahoo_finance.py`).

Shallow embedding conventions:
* A calendar date is modelled as its `datetime64[D]` integer value, i.e. the
  number of days since 1970-01-01, as an `Int`.  The source converts dates to
  `%Y-%m-%d` strings and back with `astype('datetime64[D]').view('int64')`;
  that round-trip is the identity on the day number, so the reductions are
  stated directly on day numbers.
* In the download pipeline (`yahoo_finance.py`) all cell values, dates
  included, are strings, and a missing value (`np.nan`) is `none`; a cell is
  `Option String`.
* Exceptions are modelled with `Except`; the thread pool of
  `Download._download_thread` (`multiprocessing.dummy.Pool.starmap`) re-raises
  the exception of a failed task after the pool is joined, which is modelled
  by a fail-fast collection over the submission order.
* External collaborators (the `pandas_market_calendars` package, the HTTP
  session and `pandas.read_csv`) are parameters of the model: `sched` maps an
  (exchange, start, end) triple to the trading days, `fetch` maps a ticker to
  the parsed CSV table or an error, and `mlabel` is `strftime('%m')`, the
  month label of a day number.
-/

/-! ## Exchange calendar (`exchange_calendars.py`) -/

/-- `ExchangeCalendar.Weekly.day_of_week_num` (exchange_calendars.py line 105):
`(dts.astype('datetime64[D]').view('int64') - 4) % 7` on the day number, so
Monday = 0, ..., Sunday = 6.  Lean's `%` on `Int` and Python's `%` both return
a value in `[0, 7)` here. -/
def day_of_week_num (d : Int) : Int := (d - 4) % 7

/-- `ExchangeCalendar.Weekly._get_weekly_dates` (exchange_calendars.py lines
107-109): `[previous_date for current_date, previous_date in
zip(daily_dr, daily_dr[1:]) if day_of_week_num(current_date) >
day_of_week_num(previous_date)]`.  Note how the source binds the *earlier*
element of each adjacent pair to `current_date` and the *later* one to
`previous_date`, and emits the second component of the pair. -/
def get_weekly_dates (daily_dr : List Int) : List Int :=
  (daily_dr.zip daily_dr.tail).filterMap fun cp =>
    if day_of_week_num cp.1 > day_of_week_num cp.2 then some cp.2 else none

/-- `ExchangeCalendar.Monthly._get_monthly_dates` (exchange_calendars.py line
119-120): `[z for x, y, z in zip(monthly_dr, monthly_dr[1:], daily_dr[1:])
if y != x]`.  The month labels (`strftime('%m')` strings in the source, used
only up to equality) are modelled as `Nat`; Python's three-way `zip` truncates
to the shortest input exactly as the nested `List.zip` does. -/
def get_monthly_dates (daily_dr : List Int) (monthly_dr : List Nat) : List Int :=
  (monthly_dr.zip (monthly_dr.tail.zip daily_dr.tail)).filterMap fun t =>
    if t.2.1 ≠ t.1 then some t.2.2 else none

/-- Error taxonomy of the pipeline, named as in the specification:
request-validation failures and the per-ticker fetch failure
(`requests` HTTP error or parse error, carrying the ticker). -/
inductive DLError where
  | invalidExchange
  | invalidRange
  | fetchError (ticker : String)
  deriving DecidableEq, Repr

/-- The exchange identifiers accepted by the calendar, from the
`ExchangeCalendar` docstring (exchange_calendars.py lines 42-44). -/
def valid_exchanges : List String :=
  ["BMF", "CFE", "CME", "CBOT", "COMEX", "NYMEX", "EUREX", "ICE", "ICEUS",
   "NYFE", "JPX", "LSE", "NYSE", "stock", "NASDAQ", "BATS", "OSE", "SIX",
   "TSX", "TSXV", "SSE", "HKEX"]

/-- Lexicographic comparison of the character lists of two `%Y-%m-%d` date
strings; on well-formed ISO dates this is the chronological order that
`pandas_market_calendars` compares the parsed timestamps by. -/
def chars_le : List Char → List Char → Bool
  | [], _ => true
  | _ :: _, [] => false
  | a :: as, b :: bs => if a = b then chars_le as bs else decide (a < b)

/-- `ExchangeCalendar.get_daterange` (exchange_calendars.py lines 55-67).
Modelled from the spec: the body delegates to the external
`pandas_market_calendars` package (`tcal.get_calendar(self.exchange)` followed
by `.schedule(start_date, end_date)` and `tcal.date_range`), which is not part
of this repository.  Per spec §4.1/§7 the lookup rejects an unrecognized
exchange identifier (`InvalidExchangeError`) — the source consults the
calendar before the range — and the schedule rejects `start > end`
(`InvalidRangeError`); otherwise the trading days are whatever the external
calendar (`sched`) yields for the triple. -/
def get_daterange {δ : Type} (sched : String → String → String → List δ)
    (start end_ exchange : String) : Except DLError (List δ) :=
  if exchange ∈ valid_exchanges then
    if chars_le start.data end_.data then Except.ok (sched exchange start end_)
    else Except.error DLError.invalidRange
  else Except.error DLError.invalidExchange

/-- The per-instance attributes set by `ExchangeCalendar.__init__`
(exchange_calendars.py lines 49-52): `self.start`, `self.end`,
`self.exchange`. -/
structure ExchangeCalendarInst where
  start : String
  end_ : String
  exchange : String
  deriving DecidableEq, Repr

/-- `ExchangeCalendar.__init__` (exchange_calendars.py lines 49-53).  The
final statement is `ExchangeCalendar.date_range = self.get_daterange()`: it
writes the **class** attribute, shared by every instance, so the construction
is modelled as a transition on that shared state (the previous state `_st` is
unconditionally overwritten).  A validation error raised inside
`get_daterange` propagates out of the constructor. -/
def ExchangeCalendar.init (sched : String → String → String → List Int)
    (start end_ exchange : String) (_st : List Int) :
    Except DLError (ExchangeCalendarInst × List Int) :=
  match get_daterange sched start end_ exchange with
  | Except.error e => Except.error e
  | Except.ok dr => Except.ok (⟨start, end_, exchange⟩, dr)

/-- `ExchangeCalendar.get_dates` (exchange_calendars.py lines 88-91) together
with the nested `Daily`/`Weekly`/`Monthly` readers (lines 94-126).  All three
readers take their data from the class attribute `ExchangeCalendar.date_range`
(the shared state `st`), never from the instance `_inst`; the monthly reader
labels each day with `strftime('%m')`, abstracted as `mlabel`.  An interval
outside `['d', 'w', 'm']` fails the `assert` (modelled as `none`). -/
def ExchangeCalendar.get_dates (mlabel : Int → Nat) (_inst : ExchangeCalendarInst)
    (st : List Int) (time_interval : String) : Option (List Int) :=
  if time_interval = "d" then some st
  else if time_interval = "w" then some (get_weekly_dates st)
  else if time_interval = "m" then some (get_monthly_dates st (st.map mlabel))
  else none

/-! ## Tickers (`yahoo_finance.py`, class `Tickers`) -/

/-- The `tickers` argument of `Parameters`: "single tickers can be passed as a
string. Multiple tickers have to be passed as a list". -/
inductive TickersInput where
  | single (s : String)
  | list (l : List String)
  deriving DecidableEq, Repr

/-- ASCII upper-casing of a ticker, `str.upper()` applied per character. -/
def upper (s : String) : String := String.mk (s.data.map Char.toUpper)

/-- `Tickers.transform` (yahoo_finance.py lines 325-343):
`ticker_list = tickers if isinstance(tickers, list) else [tickers]` followed by
`[elem.upper() for elem in ticker_list]`. -/
def Tickers.transform : TickersInput → List String
  | TickersInput.single s => [upper s]
  | TickersInput.list l => l.map upper

/-- What Python's iteration protocol yields for the raw `params.tickers`
value: the elements of a list, or the single characters (as one-character
strings) of a string.  This is how `zip(self.params.tickers, ...)` in
`Download._download_thread` (line 228) traverses the tickers. -/
def iter_elems : TickersInput → List String
  | TickersInput.single s => s.data.map String.singleton
  | TickersInput.list l => l

/-! ## Data frames and CSV parsing (`yahoo_finance.py`, class `Download`) -/

/-- A cell of a parsed CSV table: `none` is `np.nan` (missing for whatever
reason), `some v` a present string value. -/
abbrev Cell := Option String

/-- A parsed CSV table: header row plus data rows of cells. -/
structure RawFrame where
  header : List String
  rows : List (List Cell)
  deriving DecidableEq, Repr

/-- A per-ticker result of `Download._get_single_ticker`: the fetched frame
with `output.index.name` set to the ticker (yahoo_finance.py line 264). -/
structure TaggedFrame where
  indexName : String
  df : RawFrame
  deriving DecidableEq, Repr

/-- A frame keyed by its `Date` column, the form every frame entering a
`pd.merge(..., how='left', on='Date')` has in `get_multiple_tickers`: the key
cell of each row is its `Date` value and `cols` are the remaining (data)
column names.  `set_index('Date')` is the identity in this representation. -/
structure KFrame where
  cols : List String
  rows : List (Cell × List Cell)
  deriving DecidableEq, Repr

/-- Cell of row `r` (laid out along `header`) under column `c`; missing
columns yield `none` (pandas would raise, the theorems only use present
columns). -/
def get_cell (header : List String) (r : List Cell) (c : String) : Cell :=
  match header.findIdx? (fun x => x == c) with
  | some i => r.getD i none
  | none => none

/-- The `.replace('null', np.nan)` step of `Download._get_url`
(yahoo_finance.py line 204) on one row: every cell equal to the literal
string `null` becomes missing. -/
def replace_row (r : List Cell) : List Cell :=
  r.map fun c => if c = some "null" then none else c

/-- `.replace('null', np.nan)` over the whole frame. -/
def replace_null (df : RawFrame) : RawFrame :=
  { df with rows := df.rows.map replace_row }

/-- `.dropna()` with the default `how='any'` (yahoo_finance.py line 204):
a row survives only if every cell is present. -/
def dropna_any (df : RawFrame) : RawFrame :=
  { df with rows := df.rows.filter fun r => r.all fun c => c.isSome }

/-- The parsing tail of `Download._get_url` (yahoo_finance.py line 204):
`pd.read_csv(...).replace('null', np.nan).dropna()` applied to the parsed
response body. -/
def get_url_parse (df : RawFrame) : RawFrame := dropna_any (replace_null df)

/-- `Download._get_url` (yahoo_finance.py lines 186-204): issue the request
(`fetch`, covering `session.get` + `raise_for_status` + `read_csv`; an HTTP
or parse error is `Except.error`) and post-process the parsed table. -/
def get_url (fetch : String → Except DLError RawFrame) (ticker : String) :
    Except DLError RawFrame :=
  match fetch ticker with
  | Except.error e => Except.error e
  | Except.ok df => Except.ok (get_url_parse df)

/-- `Download._get_single_ticker` (yahoo_finance.py lines 236-266): fetch one
ticker's series (the URL is the template instantiated with the ticker, the
unix dates, the fixed `1d` granularity, the identifier and the crumb — all
but the ticker constant across the batch, so `fetch` is keyed by the ticker)
and set the frame's index name to the ticker. -/
def get_single_ticker (fetch : String → Except DLError RawFrame)
    (ticker : String) : Except DLError TaggedFrame :=
  match get_url fetch ticker with
  | Except.error e => Except.error e
  | Except.ok df => Except.ok ⟨ticker, df⟩

/-- The observable behaviour of `ThreadPool(4).starmap` in
`Download._download_thread` (yahoo_finance.py lines 225-234): the pool runs
every submitted task, is closed and joined, and then `starmap` either returns
the list of all results in submission order or re-raises the exception of a
failed task — in which case the successful results are discarded. -/
def starmap_collect (f : String → Except DLError TaggedFrame) :
    List String → Except DLError (List TaggedFrame)
  | [] => Except.ok []
  | t :: ts =>
    match f t with
    | Except.error e => Except.error e
    | Except.ok r =>
      match starmap_collect f ts with
      | Except.error e => Except.error e
      | Except.ok rs => Except.ok (r :: rs)

/-- `Download._download_thread` (yahoo_finance.py lines 206-234): one task per
element of the *raw* `self.params.tickers` (line 228 zips the params value
directly, so a bare string is traversed character by character). -/
def download_thread (fetch : String → Except DLError RawFrame)
    (tickers : TickersInput) : Except DLError (List TaggedFrame) :=
  starmap_collect (get_single_ticker fetch) (iter_elems tickers)

/-! ## Merge engine (`yahoo_finance.py`, `Download.get_multiple_tickers`) -/

/-- Column selection `result[cols]` keyed by the `Date` column: the data
columns are `cols` without `Date`, in the order of `cols`, and every row is
keyed by its `Date` cell.  With `cols = df.header` this is the identity used
for the `div`/`split` branch. -/
def kframe_of (df : RawFrame) (cols : List String) : KFrame :=
  let dcols := cols.filter fun c => c ≠ "Date"
  { cols := dcols,
    rows := df.rows.map fun r =>
      (get_cell df.header r "Date", dcols.map (get_cell df.header r)) }

/-- The rename loop of `get_multiple_tickers` (yahoo_finance.py lines
308-311): every column other than `Date` is renamed to
`column + "_" + self.data_df.index.name`. -/
def rename_k (tickerName : String) (kf : KFrame) : KFrame :=
  { kf with cols := kf.cols.map fun c => c ++ "_" ++ tickerName }

/-- `pd.merge(self.output_df, self.data_df, how='left', on='Date')`
(yahoo_finance.py line 314): every left row, in left order, is joined with
each right row bearing an equal `Date` key (in right order), or padded with
missing cells when no right row matches. -/
def merge_left (l r : KFrame) : KFrame :=
  { cols := l.cols ++ r.cols,
    rows := l.rows.flatMap fun lr =>
      let ms := r.rows.filter fun rr => rr.1 == lr.1
      if ms.isEmpty then [(lr.1, lr.2 ++ r.cols.map fun _ => (none : Cell))]
      else ms.map fun rr => (lr.1, lr.2 ++ rr.2) }

/-- The final `.dropna(how='all')` (yahoo_finance.py line 319), applied after
`set_index('Date')`: a row survives only if at least one data cell is
present (a row with no data columns at all is dropped, as pandas does). -/
def dropna_all (kf : KFrame) : KFrame :=
  { kf with rows := kf.rows.filter fun r => r.2.any fun c => c.isSome }

/-- The projection and rename applied to one fetched result inside the merge
loop (yahoo_finance.py lines 301-311): for `history` the frame is cut down to
the requested columns, otherwise used unmodified, and then every non-`Date`
column is suffixed with `_<index name>`. -/
def series_kframe (identifier : String) (columns : List String)
    (tf : TaggedFrame) : KFrame :=
  rename_k tf.indexName
    (if identifier = "history" then kframe_of tf.df columns
     else kframe_of tf.df tf.df.header)

/-- One iteration of the merge loop (yahoo_finance.py lines 301-314). -/
def merge_step (identifier : String) (columns : List String)
    (acc : KFrame) (tf : TaggedFrame) : KFrame :=
  merge_left acc (series_kframe identifier columns tf)

/-- The date axis returned by `ExchangeCalendar(...).get_dates(...)` as a
one-column `Date` frame (yahoo_finance.py line 295), keyed by its dates. -/
def axis_frame (axis : List String) : KFrame :=
  { cols := [], rows := axis.map fun d => (some d, []) }

/-- The `Parameters` object (yahoo_finance.py lines 67-104). -/
structure Parameters where
  start : String
  end_ : String
  tickers : TickersInput
  interval : String
  exchange : String
  columns : List String
  deriving DecidableEq, Repr

/-- Lines 288-289 of `get_multiple_tickers`: `if 'Date' not in
self.params.columns: self.params.columns.insert(0, 'Date')` — an in-place
mutation of the caller's list. -/
def normalize_columns (columns : List String) : List String :=
  if "Date" ∈ columns then columns else "Date" :: columns

/-- `Download.get_multiple_tickers` (yahoo_finance.py lines 268-319).  Returns
the result (merged frame or propagated exception), the `Parameters` object as
the caller observes it afterwards (its `columns` list is mutated in place at
lines 288-289 before anything else runs), and the list of tickers for which a
fetch task was submitted.  Steps in source order: mutate `params.columns`;
compute `Tickers.transform(self.params.tickers)` into `self.tickers` (line
292 — never read again, so it leaves no trace in the result); build the date
axis (line 295, raising before any fetch on invalid input); download every
ticker (line 298); fold the merge loop over the results and drop all-missing
rows. -/
def get_multiple_tickers (sched : String → String → String → List String)
    (fetch : String → Except DLError RawFrame) (identifier : String)
    (params : Parameters) :
    Except DLError KFrame × Parameters × List String :=
  let columns := normalize_columns params.columns
  let params' := { params with columns := columns }
  match get_daterange sched params.start params.end_ params.exchange with
  | Except.error e => (Except.error e, params', [])
  | Except.ok axis =>
    let fetched := iter_elems params.tickers
    match download_thread fetch params.tickers with
    | Except.error e => (Except.error e, params', fetched)
    | Except.ok results =>
      (Except.ok (dropna_all (results.foldl (merge_step identifier columns)
          (axis_frame axis))), params', fetched)

/-- `YahooFinance.get_history` (yahoo_finance.py lines 378-394). -/
def YahooFinance.get_history (sched : String → String → String → List String)
    (fetch : String → Except DLError RawFrame) (params : Parameters) :
    Except DLError KFrame × Parameters × List String :=
  get_multiple_tickers sched fetch "history" params

/-- `YahooFinance.get_dividends` (yahoo_finance.py lines 396-412). -/
def YahooFinance.get_dividends (sched : String → String → String → List String)
    (fetch : String → Except DLError RawFrame) (params : Parameters) :
    Except DLError KFrame × Parameters × List String :=
  get_multiple_tickers sched fetch "div" params

/-- `YahooFinance.get_splits` (yahoo_finance.py lines 414-430). -/
def YahooFinance.get_splits (sched : String → String → String → List String)
    (fetch : String → Except DLError RawFrame) (params : Parameters) :
    Except DLError KFrame × Parameters × List String :=
  get_multiple_tickers sched fetch "split" params

/-! ## Helper lemmas -/

/-- Adjacent-pair traversal via `zip l l.tail` as an index-based traversal. -/
theorem pair_filterMap_eq_range (f : Int → Int → Option Int) (D : List Int) :
    (D.zip D.tail).filterMap (fun p => f p.1 p.2) =
      (List.range (D.length - 1)).filterMap
        (fun i => f (D.getD i 0) (D.getD (i + 1) 0)) := by
  induction D with
  | nil => rfl
  | cons d tl ih =>
    cases tl with
    | nil => rfl
    | cons d1 tl1 =>
      have hlen : (d :: d1 :: tl1).length - 1 = tl1.length + 1 := by simp
      have hshift :
          ((fun i => f ((d :: d1 :: tl1).getD i 0) ((d :: d1 :: tl1).getD (i + 1) 0))
              ∘ Nat.succ) =
            fun i => f ((d1 :: tl1).getD i 0) ((d1 :: tl1).getD (i + 1) 0) := by
        funext i
        simp [Function.comp, List.getD_cons_succ]
      have ih' : ((d1 :: tl1).zip tl1).filterMap (fun p => f p.1 p.2) =
          (List.range tl1.length).filterMap
            (fun i => f ((d1 :: tl1).getD i 0) ((d1 :: tl1).getD (i + 1) 0)) := by
        simpa using ih
      rw [hlen, List.range_succ_eq_map, List.tail_cons, List.zip_cons_cons,
        List.filterMap_cons, List.filterMap_cons, List.filterMap_map, hshift, ← ih']
      rfl

/-- Every date emitted by the weekly reduction comes from the tail of the
daily sequence. -/
theorem mem_weekly_sub_tail {x : Int} {L : List Int}
    (h : x ∈ get_weekly_dates L) : x ∈ L.tail := by
  unfold get_weekly_dates at h
  rw [List.mem_filterMap] at h
  obtain ⟨⟨a, b⟩, hp, hx⟩ := h
  by_cases hc : day_of_week_num a > day_of_week_num b
  · rw [if_pos hc] at hx
    obtain rfl : b = x := Option.some.inj hx
    exact (List.of_mem_zip hp).2
  · rw [if_neg hc] at hx
    cases hx

/-- Every date emitted by the monthly reduction comes from the tail of the
daily sequence. -/
theorem mem_monthly_sub_tail {x : Int} {L : List Int} {M : List Nat}
    (h : x ∈ get_monthly_dates L M) : x ∈ L.tail := by
  unfold get_monthly_dates at h
  rw [List.mem_filterMap] at h
  obtain ⟨⟨a, b, c⟩, hp, hx⟩ := h
  by_cases hc : b ≠ a
  · rw [if_pos hc] at hx
    obtain rfl : c = x := Option.some.inj hx
    exact (List.of_mem_zip (List.of_mem_zip hp).2).2
  · rw [if_neg hc] at hx
    cases hx

/-- Reading `get_daterange` off its success case. -/
theorem get_daterange_ok {δ : Type} (sched : String → String → String → List δ)
    (start end_ exchange : String) (dr : List δ)
    (h : get_daterange sched start end_ exchange = Except.ok dr) :
    dr = sched exchange start end_ := by
  unfold get_daterange at h
  split_ifs at h with hx hc
  · exact (Except.ok.inj h).symm

/-- Reading `ExchangeCalendar.init` off its success case: the instance carries
the triple, and the shared state is overwritten with that triple's range. -/
theorem ExchangeCalendar_init_ok (sched : String → String → String → List Int)
    (s e x : String) (st st' : List Int) (i : ExchangeCalendarInst)
    (h : ExchangeCalendar.init sched s e x st = Except.ok (i, st')) :
    st' = sched x s e ∧ i = ⟨s, e, x⟩ := by
  unfold ExchangeCalendar.init at h
  rcases hgd : get_daterange sched s e x with e' | dr
  · rw [hgd] at h; cases h
  · rw [hgd] at h
    have hpair := Except.ok.inj h
    have h1 : (⟨s, e, x⟩ : ExchangeCalendarInst) = i := congrArg Prod.fst hpair
    have h2 : dr = st' := congrArg Prod.snd hpair
    exact ⟨h2 ▸ get_daterange_ok sched s e x dr hgd, h1.symm⟩

/-- A failing task makes `starmap` re-raise: some error is the overall
result. -/
theorem starmap_collect_error (f : String → Except DLError TaggedFrame)
    (e : DLError) (t : String) (he : f t = Except.error e) :
    ∀ ts : List String, t ∈ ts →
      ∃ e', starmap_collect f ts = Except.error e' := by
  intro ts
  induction ts with
  | nil => intro ht; cases ht
  | cons a as ih =>
    intro ht
    rcases List.mem_cons.mp ht with h | h
    · subst h
      exact ⟨e, by simp [starmap_collect, he]⟩
    · cases hfa : f a with
      | error e2 => exact ⟨e2, by simp [starmap_collect, hfa]⟩
      | ok r =>
        obtain ⟨e', h'⟩ := ih h
        exact ⟨e', by simp [starmap_collect, hfa, h']⟩

/-- When every task succeeds and names its result after its ticker,
`starmap` returns one result per ticker, in submission order. -/
theorem starmap_collect_ok_names (f : String → Except DLError TaggedFrame)
    (hn : ∀ t r, f t = Except.ok r → r.indexName = t) :
    ∀ ts : List String, (∀ t ∈ ts, ∃ r, f t = Except.ok r) →
      ∃ rs, starmap_collect f ts = Except.ok rs ∧
        rs.map (fun r => r.indexName) = ts := by
  intro ts
  induction ts with
  | nil => exact fun _ => ⟨[], rfl, rfl⟩
  | cons a as ih =>
    intro h
    obtain ⟨r, hr⟩ := h a (List.mem_cons_self a as)
    obtain ⟨rs, hrs, hmap⟩ := ih (fun t ht => h t (List.mem_cons_of_mem a ht))
    exact ⟨r :: rs, by simp [starmap_collect, hr, hrs],
      by simp [hmap, hn a r hr]⟩

/-- Under pairwise-distinct keys, at most one row matches any key. -/
theorem filter_key_length_le_one (d : Cell) :
    ∀ rows : List (Cell × List Cell), (rows.map Prod.fst).Nodup →
      (rows.filter fun rr => rr.1 == d).length ≤ 1 := by
  intro rows
  induction rows with
  | nil => intro _; simp
  | cons r rs ih =>
    intro h
    rw [List.map_cons, List.nodup_cons] at h
    by_cases hd : r.1 = d
    · have hnil : rs.filter (fun rr => rr.1 == d) = [] := by
        rw [List.filter_eq_nil_iff]
        intro rr hrr hbeq
        have heq : rr.1 = d := by simpa using hbeq
        exact h.1 (by rw [hd, ← heq]; exact List.mem_map_of_mem Prod.fst hrr)
      simp [List.filter_cons, hd, hnil]
    · have hrec := ih h.2
      simpa [List.filter_cons, hd] using hrec

/-- Singleton-image `flatMap` is `map`. -/
theorem flatMap_singleton_map {α β : Type} (g : α → β) :
    ∀ l : List α, (l.flatMap fun x => [g x]) = l.map g := by
  intro l
  induction l with
  | nil => rfl
  | cons a as ih => simp [ih]

/-- A left join against a right frame with pairwise-distinct keys leaves the
key column of the left frame unchanged: same keys, same order, same
cardinality. -/
theorem merge_left_map_fst (l r : KFrame) (h : (r.rows.map Prod.fst).Nodup) :
    (merge_left l r).rows.map Prod.fst = l.rows.map Prod.fst := by
  show (l.rows.flatMap fun lr =>
      let ms := r.rows.filter fun rr => rr.1 == lr.1
      if ms.isEmpty then [(lr.1, lr.2 ++ r.cols.map fun _ => (none : Cell))]
      else ms.map fun rr => (lr.1, lr.2 ++ rr.2)).map Prod.fst
    = l.rows.map Prod.fst
  rw [List.map_flatMap]
  have hrow : ∀ lr : Cell × List Cell,
      ((let ms := r.rows.filter fun rr => rr.1 == lr.1
        if ms.isEmpty then [(lr.1, lr.2 ++ r.cols.map fun _ => (none : Cell))]
        else ms.map fun rr => (lr.1, lr.2 ++ rr.2)).map Prod.fst)
      = [lr.1] := by
    intro lr
    by_cases he : (r.rows.filter fun rr => rr.1 == lr.1).isEmpty
    · simp only [he, if_true]
      rfl
    · have hle := filter_key_length_le_one lr.1 r.rows h
      have hne : (r.rows.filter fun rr => rr.1 == lr.1) ≠ [] := by
        simpa [List.isEmpty_iff] using he
      have h0 : (r.rows.filter fun rr => rr.1 == lr.1).length ≠ 0 := by
        simpa [List.length_eq_zero] using hne
      have h1 : (r.rows.filter fun rr => rr.1 == lr.1).length = 1 :=
        Nat.le_antisymm hle (Nat.one_le_iff_ne_zero.mpr h0)
      obtain ⟨m, hm⟩ := List.length_eq_one.mp h1
      simp only [he, if_false, hm]
      rfl
  calc (l.rows.flatMap fun lr =>
          ((let ms := r.rows.filter fun rr => rr.1 == lr.1
            if ms.isEmpty then [(lr.1, lr.2 ++ r.cols.map fun _ => (none : Cell))]
            else ms.map fun rr => (lr.1, lr.2 ++ rr.2)).map Prod.fst))
      = l.rows.flatMap fun lr => [lr.1] := by
        apply List.flatMap_congr
        intro lr _
        exact hrow lr
    _ = l.rows.map Prod.fst := flatMap_singleton_map Prod.fst l.rows

/-- The merge loop never changes the key column of the accumulator when every
joined series has pairwise-distinct dates. -/
theorem foldl_merge_map_fst (identifier : String) (columns : List String) :
    ∀ (results : List TaggedFrame) (acc : KFrame),
      (∀ tf ∈ results,
        ((series_kframe identifier columns tf).rows.map Prod.fst).Nodup) →
      (results.foldl (merge_step identifier columns) acc).rows.map Prod.fst
        = acc.rows.map Prod.fst := by
  intro results
  induction results with
  | nil => intro acc _; rfl
  | cons tf tfs ih =>
    intro acc h
    rw [List.foldl_cons,
      ih _ (fun x hx => h x (List.mem_cons_of_mem tf hx))]
    exact merge_left_map_fst acc _ (h tf (List.mem_cons_self tf tfs))

/-- The merge loop appends each joined series' data columns, in fetch-result
order. -/
theorem foldl_merge_cols (identifier : String) (columns : List String) :
    ∀ (results : List TaggedFrame) (acc : KFrame),
      (results.foldl (merge_step identifier columns) acc).cols
        = acc.cols
          ++ results.flatMap fun tf =>
              (series_kframe identifier columns tf).cols := by
  intro results
  induction results with
  | nil => intro acc; simp
  | cons tf tfs ih =>
    intro acc
    rw [List.foldl_cons, ih]
    simp [merge_step, merge_left, List.append_assoc]

/-- The data columns of a projected and renamed `history` series. -/
theorem series_kframe_history_cols (columns : List String) (tf : TaggedFrame) :
    (series_kframe "history" columns tf).cols
      = (columns.filter fun c => c ≠ "Date").map
          fun c => c ++ "_" ++ tf.indexName := by
  simp [series_kframe, rename_k, kframe_of]

/-! ## Claims -/

/-- C1 counterexample.  The claim predicts that for an adjacent pair whose
second day-of-week ordinal exceeds the first — here Monday 1970-01-05 (day 4,
ordinal 0) followed by Tuesday 1970-01-06 (day 5, ordinal 1) — the earlier
element is emitted; the code emits nothing at all for this sequence. -/
theorem C1_counterexample :
    day_of_week_num 5 > day_of_week_num 4 ∧ get_weekly_dates [4, 5] = [] := by
  decide

/-- C1 (amended): the weekly date axis contains exactly those elements
`D[i+1]` whose *predecessor's* day-of-week ordinal is numerically greater
(i.e. a week rollover happened between `D[i]` and `D[i+1]`); the emitted
element of each qualifying adjacent pair is the *later* one — the first
trading day after the week boundary. -/
theorem C1_weekly_emits_later_element (D : List Int) :
    get_weekly_dates D
      = (List.range (D.length - 1)).filterMap fun i =>
          if day_of_week_num (D.getD i 0) > day_of_week_num (D.getD (i + 1) 0)
          then some (D.getD (i + 1) 0) else none :=
  pair_filterMap_eq_range
    (fun a b => if day_of_week_num a > day_of_week_num b then some b else none) D

/-- C9 counterexample.  For the daily sequence Monday 1970-01-05 (day 4)
through Friday (day 8) followed by Monday 1970-01-12 (day 11), the weekly
reduction emits day 11 — the very last date of the sequence.  Likewise the
monthly reduction emits the last date when the final adjacent pair crosses a
month-label boundary. -/
theorem C9_counterexample :
    get_weekly_dates [4, 5, 6, 7, 8, 11] = [11] ∧
    ([4, 5, 6, 7, 8, 11] : List Int).getLast? = some 11 ∧
    get_monthly_dates [10, 40] [1, 2] = [40] ∧
    ([10, 40] : List Int).getLast? = some 40 := by
  decide

/-- C9 (amended): for every strictly ascending daily trading-day sequence
`D`, the very *first* date of `D` is never emitted by the weekly reduction,
and never by the monthly reduction for any sequence of month labels — both
reductions draw every emitted element from `D.tail` (the very last date, by
contrast, can be emitted, as `C9_counterexample` shows). -/
theorem C9_first_date_never_emitted (D : List Int) (d : Int)
    (hs : D.Pairwise (· < ·)) (hh : D.head? = some d) :
    d ∉ get_weekly_dates D ∧ ∀ M : List Nat, d ∉ get_monthly_dates D M := by
  cases D with
  | nil => cases hh
  | cons x tl =>
    obtain rfl : x = d := Option.some.inj hh
    have hlt : ∀ y ∈ tl, x < y := (List.pairwise_cons.mp hs).1
    have hnt : x ∉ (x :: tl).tail := by
      intro hmem
      exact lt_irrefl x (hlt x hmem)
    constructor
    · intro hw
      exact hnt (mem_weekly_sub_tail hw)
    · intro M hm
      exact hnt (mem_monthly_sub_tail hm)

/-- C9 witness: a concrete strictly ascending sequence whose head is emitted
by neither reduction. -/
theorem C9_first_date_never_emitted_witness :
    ([4, 5, 11] : List Int).Pairwise (· < ·) ∧
    ([4, 5, 11] : List Int).head? = some 4 ∧
    (4 : Int) ∉ get_weekly_dates [4, 5, 11] ∧
    (4 : Int) ∉ get_monthly_dates [4, 5, 11] [1, 1, 2] :=
  ⟨by decide, by decide,
    (C9_first_date_never_emitted [4, 5, 11] 4 (by decide) (by decide)).1,
    (C9_first_date_never_emitted [4, 5, 11] 4 (by decide) (by decide)).2 [1, 1, 2]⟩

/-- C2 counterexample.  A two-ticker batch where only ticker `A` fails: the
whole download raises the single ticker's error, and ticker `B`'s
successfully fetched data is nowhere in the result. -/
theorem C2_counterexample :
    download_thread
      (fun t => if t = "A" then Except.error (DLError.fetchError "A")
        else Except.ok ⟨["Date", "Close"], [[some "2020-01-02", some "1"]]⟩)
      (TickersInput.list ["A", "B"])
      = Except.error (DLError.fetchError "A") := by
  rfl

/-- C2 (amended): the batch download is fail-fast, not fail-collecting — if
any requested ticker's fetch fails, the whole operation results in an error
(the successful tickers' frames are discarded); only when every ticker's
fetch succeeds does it return the per-ticker frames, one per requested
ticker, tagged with its ticker, in submission order. -/
theorem C2_single_failure_fails_batch (fetch : String → Except DLError RawFrame)
    (tks : TickersInput) :
    ((∃ t ∈ iter_elems tks, ∃ e, fetch t = Except.error e) →
      ∃ e, download_thread fetch tks = Except.error e) ∧
    ((∀ t ∈ iter_elems tks, ∃ df, fetch t = Except.ok df) →
      ∃ rs, download_thread fetch tks = Except.ok rs ∧
        rs.map (fun r => r.indexName) = iter_elems tks) := by
  constructor
  · rintro ⟨t, ht, e, he⟩
    have hst : get_single_ticker fetch t = Except.error e := by
      simp [get_single_ticker, get_url, he]
    exact starmap_collect_error _ e t hst (iter_elems tks) ht
  · intro h
    refine starmap_collect_ok_names _ ?_ (iter_elems tks) ?_
    · intro t r hr
      cases hf : fetch t with
      | error e => simp [get_single_ticker, get_url, hf] at hr
      | ok df =>
        simp [get_single_ticker, get_url, hf] at hr
        rw [← hr]
    · intro t ht
      obtain ⟨df, hdf⟩ := h t ht
      exact ⟨⟨t, get_url_parse df⟩, by simp [get_single_ticker, get_url, hdf]⟩

/-- C2 witness: the amended theorem applied to the concrete two-ticker batch
of `C2_counterexample`. -/
theorem C2_single_failure_fails_batch_witness :
    (∃ t ∈ iter_elems (TickersInput.list ["A", "B"]), ∃ e,
      (fun t => if t = "A" then Except.error (DLError.fetchError "A")
        else Except.ok (⟨["Date", "Close"],
          [[some "2020-01-02", some "1"]]⟩ : RawFrame)) t = Except.error e) ∧
    (∃ e, download_thread
      (fun t => if t = "A" then Except.error (DLError.fetchError "A")
        else Except.ok (⟨["Date", "Close"],
          [[some "2020-01-02", some "1"]]⟩ : RawFrame))
      (TickersInput.list ["A", "B"]) = Except.error e) :=
  ⟨⟨"A", by decide, DLError.fetchError "A", by rfl⟩,
    (C2_single_failure_fails_batch _ _).1
      ⟨"A", by decide, DLError.fetchError "A", by rfl⟩⟩

/-- C3: the code contradicts its own intent here.  `get_multiple_tickers`
computes `Tickers.transform(self.params.tickers)` into `self.tickers`
(line 292) but `_download_thread` iterates the raw `self.params.tickers`
(line 228), so the normalized uppercase list is never used: a lowercase
ticker is fetched — and suffixes its columns — in lowercase, and a bare
string would be iterated character by character. -/
theorem C3_normalized_tickers_unused :
    (get_multiple_tickers (fun _ _ _ => ["2020-01-02"])
      (fun _ => Except.ok ⟨["Date", "Close"], [[some "2020-01-02", some "1"]]⟩)
      "history"
      ⟨"2020-01-01", "2020-01-03", TickersInput.list ["aapl"], "d", "NYSE",
        ["Close"]⟩).2.2 = ["aapl"] ∧
    Tickers.transform (TickersInput.list ["aapl"]) = ["AAPL"] ∧
    (get_multiple_tickers (fun _ _ _ => ["2020-01-02"])
      (fun _ => Except.ok ⟨["Date", "Close"], [[some "2020-01-02", some "1"]]⟩)
      "history"
      ⟨"2020-01-01", "2020-01-03", TickersInput.list ["aapl"], "d", "NYSE",
        ["Close"]⟩).1
      = Except.ok ⟨["Close_aapl"], [(some "2020-01-02", [some "1"])]⟩ ∧
    iter_elems (TickersInput.single "vz") = ["v", "z"] ∧
    Tickers.transform (TickersInput.single "vz") = ["VZ"] := by
  exact ⟨rfl, rfl, rfl, rfl, rfl⟩

/-- C4 counterexample.  The claim quantifies over every sequence of
per-ticker series, but a series carrying the same date twice breaks
cardinality preservation: a one-row axis left-joined with a
duplicate-date series yields two rows. -/
theorem C4_counterexample :
    (([⟨"A", ⟨["Date", "Close"],
        [[some "2020-01-02", some "1"], [some "2020-01-02", some "2"]]⟩⟩] :
        List TaggedFrame).foldl (merge_step "history" ["Date", "Close"])
        (axis_frame ["2020-01-02"])).rows.length = 2 ∧
    (["2020-01-02"] : List String).length = 1 := by
  decide

/-- C4 (amended): provided every joined per-ticker series has
pairwise-distinct dates (as really fetched series do), each left-join of the
merge loop preserves the date axis's row order and cardinality — the key
column of the fully merged frame is exactly the axis; keying by date, the
final step drops exactly those rows whose data cells are all empty, so the
output's key sequence is an order-preserving subsequence of the date axis. -/
theorem C4_merge_preserves_axis (identifier : String) (columns : List String)
    (axis : List String) (results : List TaggedFrame)
    (h : ∀ tf ∈ results,
      ((series_kframe identifier columns tf).rows.map Prod.fst).Nodup) :
    ((results.foldl (merge_step identifier columns) (axis_frame axis)).rows.map
        Prod.fst = axis.map some) ∧
    ((dropna_all (results.foldl (merge_step identifier columns)
        (axis_frame axis))).rows
      = (results.foldl (merge_step identifier columns)
          (axis_frame axis)).rows.filter fun r => r.2.any fun c => c.isSome) ∧
    (((dropna_all (results.foldl (merge_step identifier columns)
        (axis_frame axis))).rows.map Prod.fst).Sublist (axis.map some)) := by
  have h1 := foldl_merge_map_fst identifier columns results (axis_frame axis) h
  have haxis : (axis_frame axis).rows.map Prod.fst = axis.map some := by
    simp [axis_frame]
  have hkeys := h1.trans haxis
  refine ⟨hkeys, rfl, ?_⟩
  have hsub : (dropna_all (results.foldl (merge_step identifier columns)
      (axis_frame axis))).rows.Sublist
        (results.foldl (merge_step identifier columns)
          (axis_frame axis)).rows := List.filter_sublist _
  exact hkeys ▸ hsub.map Prod.fst

/-- C4 witness: the amended theorem applied to a one-ticker batch over a
two-day axis in which the ticker has data for only the first day. -/
theorem C4_merge_preserves_axis_witness :
    (∀ tf ∈ ([⟨"AAPL", ⟨["Date", "Close"],
        [[some "2020-01-02", some "1"]]⟩⟩] : List TaggedFrame),
      ((series_kframe "history" ["Date", "Close"] tf).rows.map Prod.fst).Nodup) ∧
    ((([⟨"AAPL", ⟨["Date", "Close"],
        [[some "2020-01-02", some "1"]]⟩⟩] : List TaggedFrame).foldl
          (merge_step "history" ["Date", "Close"])
          (axis_frame ["2020-01-02", "2020-01-03"])).rows.map
        Prod.fst = ["2020-01-02", "2020-01-03"].map some) ∧
    ((dropna_all (([⟨"AAPL", ⟨["Date", "Close"],
        [[some "2020-01-02", some "1"]]⟩⟩] : List TaggedFrame).foldl
          (merge_step "history" ["Date", "Close"])
          (axis_frame ["2020-01-02", "2020-01-03"]))).rows
      = (([⟨"AAPL", ⟨["Date", "Close"],
          [[some "2020-01-02", some "1"]]⟩⟩] : List TaggedFrame).foldl
            (merge_step "history" ["Date", "Close"])
            (axis_frame ["2020-01-02", "2020-01-03"])).rows.filter
          fun r => r.2.any fun c => c.isSome) ∧
    (((dropna_all (([⟨"AAPL", ⟨["Date", "Close"],
        [[some "2020-01-02", some "1"]]⟩⟩] : List TaggedFrame).foldl
          (merge_step "history" ["Date", "Close"])
          (axis_frame ["2020-01-02", "2020-01-03"]))).rows.map
        Prod.fst).Sublist (["2020-01-02", "2020-01-03"].map some)) :=
  ⟨by decide, C4_merge_preserves_axis "history" ["Date", "Close"]
    ["2020-01-02", "2020-01-03"] _ (by decide)⟩

/-- C5: for a `history` request the merged frame's data columns are, besides
the date key, exactly the requested non-`Date` columns of each ticker, in
ticker processing order crossed with the projected-column order, each named
`<field>_<index name>`; and the output rows follow the date axis's order
(an order-preserving subsequence of it, given series with distinct dates).
In particular requesting `["Close"]` for tickers `AAPL, VZ` yields exactly
`Close_AAPL, Close_VZ`, in that order (see the witness). -/
theorem C5_column_naming_and_order (columns : List String) (axis : List String)
    (results : List TaggedFrame)
    (h : ∀ tf ∈ results,
      ((series_kframe "history" columns tf).rows.map Prod.fst).Nodup) :
    ((results.foldl (merge_step "history" columns) (axis_frame axis)).cols
      = results.flatMap fun tf =>
          (columns.filter fun c => c ≠ "Date").map
            fun c => c ++ "_" ++ tf.indexName) ∧
    (((dropna_all (results.foldl (merge_step "history" columns)
        (axis_frame axis))).rows.map Prod.fst).Sublist (axis.map some)) := by
  constructor
  · rw [foldl_merge_cols]
    simp only [series_kframe_history_cols]
    simp [axis_frame]
  · have h1 := foldl_merge_map_fst "history" columns results (axis_frame axis) h
    have haxis : (axis_frame axis).rows.map Prod.fst = axis.map some := by
      simp [axis_frame]
    have hsub : (dropna_all (results.foldl (merge_step "history" columns)
        (axis_frame axis))).rows.Sublist
          (results.foldl (merge_step "history" columns)
            (axis_frame axis)).rows := List.filter_sublist _
    exact (h1.trans haxis) ▸ hsub.map Prod.fst

/-- C5 witness: requesting columns `["Close"]` (normalized by the pipeline to
`["Date", "Close"]`) for the tickers `AAPL` and `VZ` yields exactly the
data columns `Close_AAPL, Close_VZ`, in that order. -/
theorem C5_column_naming_and_order_witness :
    (∀ tf ∈ ([⟨"AAPL", ⟨["Date", "Close"], [[some "2020-01-02", some "1"]]⟩⟩,
        ⟨"VZ", ⟨["Date", "Close"], [[some "2020-01-02", some "2"]]⟩⟩] :
          List TaggedFrame),
      ((series_kframe "history" (normalize_columns ["Close"]) tf).rows.map
        Prod.fst).Nodup) ∧
    (([⟨"AAPL", ⟨["Date", "Close"], [[some "2020-01-02", some "1"]]⟩⟩,
        ⟨"VZ", ⟨["Date", "Close"], [[some "2020-01-02", some "2"]]⟩⟩] :
          List TaggedFrame).foldl
        (merge_step "history" (normalize_columns ["Close"]))
        (axis_frame ["2020-01-02"])).cols = ["Close_AAPL", "Close_VZ"] ∧
    ((dropna_all (([⟨"AAPL", ⟨["Date", "Close"],
        [[some "2020-01-02", some "1"]]⟩⟩,
        ⟨"VZ", ⟨["Date", "Close"], [[some "2020-01-02", some "2"]]⟩⟩] :
          List TaggedFrame).foldl
        (merge_step "history" (normalize_columns ["Close"]))
        (axis_frame ["2020-01-02"]))).rows.map Prod.fst).Sublist
      (["2020-01-02"].map some) :=
  ⟨by decide, by decide,
    (C5_column_naming_and_order (normalize_columns ["Close"]) ["2020-01-02"] _
      (by decide)).2⟩

/-- C6: request validation fails fast.  An unrecognized exchange identifier
makes the pipeline fail with the invalid-exchange error, and (for a
recognized exchange) a start date after the end date makes it fail with the
invalid-range error; in both cases the calendar is consulted before any
download, so the list of tickers submitted for fetching is empty — no I/O is
performed.  (The in-place `Date`-insertion into the request's columns still
happens, as it precedes validation in the source; see C7.) -/
theorem C6_validation_fails_fast (sched : String → String → String → List String)
    (fetch : String → Except DLError RawFrame) (identifier : String)
    (params : Parameters) :
    (params.exchange ∉ valid_exchanges →
      get_multiple_tickers sched fetch identifier params
        = (Except.error DLError.invalidExchange,
            { params with columns := normalize_columns params.columns }, [])) ∧
    (params.exchange ∈ valid_exchanges →
      chars_le params.start.data params.end_.data = false →
      get_multiple_tickers sched fetch identifier params
        = (Except.error DLError.invalidRange,
            { params with columns := normalize_columns params.columns }, [])) := by
  constructor
  · intro hx
    simp [get_multiple_tickers, get_daterange, hx]
  · intro hx hr
    simp [get_multiple_tickers, get_daterange, hx, hr]

/-- C6 witness: a request with the unknown exchange `XNAS` and a request
with `start > end` on `NYSE`, both aborting with the typed error and an
empty fetch list. -/
theorem C6_validation_fails_fast_witness :
    ("XNAS" ∉ valid_exchanges ∧
      get_multiple_tickers (fun _ _ _ => [])
        (fun _ => Except.error (DLError.fetchError "X")) "history"
        ⟨"2020-01-01", "2020-01-03", TickersInput.list ["AAPL"], "d", "XNAS",
          ["Close"]⟩
        = (Except.error DLError.invalidExchange,
            ⟨"2020-01-01", "2020-01-03", TickersInput.list ["AAPL"], "d",
              "XNAS", ["Date", "Close"]⟩, [])) ∧
    ("NYSE" ∈ valid_exchanges ∧
      chars_le "2021-01-01".data "2020-01-01".data = false ∧
      get_multiple_tickers (fun _ _ _ => [])
        (fun _ => Except.error (DLError.fetchError "X")) "history"
        ⟨"2021-01-01", "2020-01-01", TickersInput.list ["AAPL"], "d", "NYSE",
          ["Close"]⟩
        = (Except.error DLError.invalidRange,
            ⟨"2021-01-01", "2020-01-01", TickersInput.list ["AAPL"], "d",
              "NYSE", ["Date", "Close"]⟩, [])) :=
  ⟨⟨by decide, (C6_validation_fails_fast _ _ _ _).1 (by decide)⟩,
    ⟨by decide, by decide,
      (C6_validation_fails_fast _ _ _ _).2 (by decide) (by decide)⟩⟩

/-- C7 counterexample.  A caller requesting columns `["Close"]` observes,
after `get_history` returns, that the request's columns list has become
`["Date", "Close"]`: the request object is not immutable. -/
theorem C7_counterexample :
    ((YahooFinance.get_history (fun _ _ _ => ["2020-01-02"])
      (fun _ => Except.ok ⟨["Date", "Close"], [[some "2020-01-02", some "1"]]⟩)
      ⟨"2020-01-01", "2020-01-03", TickersInput.list ["AAPL"], "d", "NYSE",
        ["Close"]⟩).2.1).columns = ["Date", "Close"] ∧
    (["Date", "Close"] : List String) ≠ ["Close"] := by
  exact ⟨rfl, by decide⟩

/-- C7 (amended): `get_history`, `get_dividends` and `get_splits` mutate the
request's `columns` list in place — when `Date` is absent it is inserted at
position 0, visibly to the caller — and leave every other field unchanged;
when `Date` is already present the columns are left as they are, so the
mutation is idempotent. -/
theorem C7_request_mutation (sched : String → String → String → List String)
    (fetch : String → Except DLError RawFrame) (params : Parameters) :
    ((YahooFinance.get_history sched fetch params).2.1
      = { params with columns := normalize_columns params.columns }) ∧
    ((YahooFinance.get_dividends sched fetch params).2.1
      = { params with columns := normalize_columns params.columns }) ∧
    ((YahooFinance.get_splits sched fetch params).2.1
      = { params with columns := normalize_columns params.columns }) ∧
    ("Date" ∈ params.columns → normalize_columns params.columns = params.columns) ∧
    (normalize_columns (normalize_columns params.columns)
      = normalize_columns params.columns) := by
  have key : ∀ idf : String, (get_multiple_tickers sched fetch idf params).2.1
      = { params with columns := normalize_columns params.columns } := by
    intro idf
    rcases hgd : get_daterange sched params.start params.end_ params.exchange
      with e | axis
    · simp [get_multiple_tickers, hgd]
    · rcases hdt : download_thread fetch params.tickers with e | results
      · simp [get_multiple_tickers, hgd, hdt]
      · simp [get_multiple_tickers, hgd, hdt]
  refine ⟨key "history", key "div", key "split", ?_, ?_⟩
  · intro hd
    simp [normalize_columns, hd]
  · by_cases hd : "Date" ∈ params.columns
    · simp [normalize_columns, hd]
    · simp [normalize_columns, hd]

/-- C7 witness: the amended theorem applied to a request that already lists
`Date`, for which the observed columns are unchanged. -/
theorem C7_request_mutation_witness :
    ((YahooFinance.get_history (fun _ _ _ => [])
      (fun _ => Except.error (DLError.fetchError "X"))
      ⟨"2020-01-01", "2020-01-03", TickersInput.list ["AAPL"], "d", "NYSE",
        ["Date", "Close"]⟩).2.1
      = ⟨"2020-01-01", "2020-01-03", TickersInput.list ["AAPL"], "d", "NYSE",
        ["Date", "Close"]⟩) ∧
    ("Date" ∈ (["Date", "Close"] : List String) ∧
      normalize_columns ["Date", "Close"] = ["Date", "Close"]) :=
  ⟨(C7_request_mutation (fun _ _ _ => [])
      (fun _ => Except.error (DLError.fetchError "X"))
      ⟨"2020-01-01", "2020-01-03", TickersInput.list ["AAPL"], "d", "NYSE",
        ["Date", "Close"]⟩).1,
    ⟨by decide,
      (C7_request_mutation (fun _ _ _ => [])
        (fun _ => Except.error (DLError.fetchError "X"))
        ⟨"2020-01-01", "2020-01-03", TickersInput.list ["AAPL"], "d", "NYSE",
          ["Date", "Close"]⟩).2.2.2.1 (by decide)⟩⟩

/-- C8 counterexample.  `ExchangeCalendar.date_range` is a class attribute:
after a second calendar is constructed for a different triple, the first
instance's `get_dates` no longer returns its own triple's dates ([0]) but
the second triple's ([1]). -/
theorem C8_counterexample :
    ExchangeCalendar.init (fun _ s _ => if s = "2020-01-01" then [0] else [1])
        "2020-01-01" "2020-01-05" "NYSE" []
      = Except.ok (⟨"2020-01-01", "2020-01-05", "NYSE"⟩, [0]) ∧
    ExchangeCalendar.init (fun _ s _ => if s = "2020-01-01" then [0] else [1])
        "2021-01-01" "2021-01-05" "NYSE" [0]
      = Except.ok (⟨"2021-01-01", "2021-01-05", "NYSE"⟩, [1]) ∧
    ExchangeCalendar.get_dates (fun _ => 0)
        ⟨"2020-01-01", "2020-01-05", "NYSE"⟩ [0] "d" = some [0] ∧
    ExchangeCalendar.get_dates (fun _ => 0)
        ⟨"2020-01-01", "2020-01-05", "NYSE"⟩ [1] "d" = some [1] ∧
    some ([0] : List Int) ≠ some [1] := by
  exact ⟨rfl, rfl, rfl, rfl, by decide⟩

/-- C8 (amended): the trading-day state is shared class-level data, not
per-instance: a successful construction overwrites it with the *new*
triple's dates, and `get_dates` depends only on that shared state — after a
second calendar is constructed, any instance (the first included) reads the
most recently constructed triple's dates, for every interval. -/
theorem C8_shared_state (sched : String → String → String → List Int)
    (mlabel : Int → Nat) (s1 e1 x1 s2 e2 x2 : String)
    (st st1 st2 : List Int) (i1 i2 : ExchangeCalendarInst)
    (_h1 : ExchangeCalendar.init sched s1 e1 x1 st = Except.ok (i1, st1))
    (h2 : ExchangeCalendar.init sched s2 e2 x2 st1 = Except.ok (i2, st2)) :
    st2 = sched x2 s2 e2 ∧
    ∀ interval : String,
      ExchangeCalendar.get_dates mlabel i1 st2 interval
        = ExchangeCalendar.get_dates mlabel i2 st2 interval := by
  refine ⟨(ExchangeCalendar_init_ok sched s2 e2 x2 st1 st2 i2 h2).1, ?_⟩
  intro interval
  rfl

/-- C8 witness: two concrete constructions in sequence; the conclusions are
drawn with the amended theorem. -/
theorem C8_shared_state_witness :
    (ExchangeCalendar.init (fun _ _ _ => [5]) "2020-01-01" "2020-01-05" "NYSE" []
      = Except.ok (⟨"2020-01-01", "2020-01-05", "NYSE"⟩, [5])) ∧
    (ExchangeCalendar.init (fun _ _ _ => [5]) "2021-01-01" "2021-01-05" "LSE" [5]
      = Except.ok (⟨"2021-01-01", "2021-01-05", "LSE"⟩, [5])) ∧
    ([5] : List Int) = (fun (_ _ _ : String) => ([5] : List Int)) "LSE"
      "2021-01-01" "2021-01-05" ∧
    (∀ interval : String,
      ExchangeCalendar.get_dates (fun _ => 1)
          ⟨"2020-01-01", "2020-01-05", "NYSE"⟩ [5] interval
        = ExchangeCalendar.get_dates (fun _ => 1)
          ⟨"2021-01-01", "2021-01-05", "LSE"⟩ [5] interval) :=
  ⟨rfl, rfl,
    (C8_shared_state (fun _ _ _ => [5]) (fun _ => 1) "2020-01-01" "2020-01-05"
      "NYSE" "2021-01-01" "2021-01-05" "LSE" [] [5] [5]
      ⟨"2020-01-01", "2020-01-05", "NYSE"⟩
      ⟨"2021-01-01", "2021-01-05", "LSE"⟩ rfl rfl).1,
    (C8_shared_state (fun _ _ _ => [5]) (fun _ => 1) "2020-01-01" "2020-01-05"
      "NYSE" "2021-01-01" "2021-01-05" "LSE" [] [5] [5]
      ⟨"2020-01-01", "2020-01-05", "NYSE"⟩
      ⟨"2021-01-01", "2021-01-05", "LSE"⟩ rfl rfl).2⟩

/-- C10: the parsing step of `_get_url` replaces every literal `null` cell
with a missing value and then drops every row containing at least one
missing value from any cause, so the frames handed to the merge step contain
no missing cells at all, and a row missing a single field is dropped
entirely even when its other fields are present. -/
theorem C10_parse_drops_missing (df : RawFrame) :
    (get_url_parse df).header = df.header ∧
    ((get_url_parse df).rows
      = (df.rows.map replace_row).filter fun r => r.all fun c => c.isSome) ∧
    (∀ r ∈ (get_url_parse df).rows, ∀ c ∈ r, c.isSome) ∧
    (∀ r ∈ df.rows, (∃ c ∈ replace_row r, c = none) →
      replace_row r ∉ (get_url_parse df).rows) := by
  refine ⟨rfl, rfl, ?_, ?_⟩
  · intro r hr c hc
    have hall := (List.mem_filter.mp hr).2
    exact List.all_eq_true.mp hall c hc
  · rintro r _ ⟨c, hc, hcn⟩ hmem
    have hall := (List.mem_filter.mp hmem).2
    have hsome := List.all_eq_true.mp hall c hc
    rw [hcn] at hsome
    cases hsome

/-- C10 witness: a frame whose first row carries a `null` marker — that row
is dropped entirely although its first field is present — and whose second
row survives with every cell present. -/
theorem C10_parse_drops_missing_witness :
    (([some "2", some "3"] : List Cell) ∈ (get_url_parse ⟨["Date", "Close"],
        [[some "1", some "null"], [some "2", some "3"]]⟩).rows ∧
      ∀ c ∈ ([some "2", some "3"] : List Cell), c.isSome) ∧
    (([some "1", some "null"] : List Cell)
        ∈ ([[some "1", some "null"], [some "2", some "3"]] : List (List Cell)) ∧
      (∃ c ∈ replace_row [some "1", some "null"], c = none) ∧
      replace_row [some "1", some "null"] ∉ (get_url_parse ⟨["Date", "Close"],
        [[some "1", some "null"], [some "2", some "3"]]⟩).rows) :=
  ⟨⟨by decide, fun c hc =>
      (C10_parse_drops_missing ⟨["Date", "Close"],
        [[some "1", some "null"], [some "2", some "3"]]⟩).2.2.1
        [some "2", some "3"] (by decide) c hc⟩,
    ⟨by decide, by decide,
      (C10_parse_drops_missing ⟨["Date", "Close"],
        [[some "1", some "null"], [some "2", some "3"]]⟩).2.2.2
        [some "1", some "null"] (by decide) (by decide)⟩⟩
